import Mathlib

/-!
Verification development for the QQ group-member-insight pipeline
(`src/app.py`).  The Python source is shallowly embedded: file contents are
`List Nat` (byte values), SQL cells are `Option String` (NULL = `none`),
SQLAlchemy upserts (`session.merge`) are explicit key-based list upserts, and
fallible calls return `Except`.  All definitions are executable.
-/

/-! ## Python string / bytes primitives -/

/-- Lowercase hexadecimal digit characters, in value order. -/
def hexDigits : List Char := "0123456789abcdef".data

/-- The lowercase hex digit for a nibble value (values `≥ 16` never occur). -/
def hexChar (n : Nat) : Char := hexDigits.getD n '0'

/-- Hexadecimal rendering of a byte list, two lowercase digits per byte,
mirroring Python's `hashlib` `hexdigest` on a 16-byte digest. -/
def toHexStr (bs : List Nat) : List Char :=
  bs.flatMap fun b => [hexChar (b / 16 % 16), hexChar (b % 16)]

/-- UTF-8 encoding of one Unicode scalar value, as Python's `str.encode`. -/
def utf8EncodeChar (c : Char) : List Nat :=
  let n := c.toNat
  if n < 0x80 then [n]
  else if n < 0x800 then
    [0xC0 ||| (n >>> 6), 0x80 ||| (n &&& 0x3F)]
  else if n < 0x10000 then
    [0xE0 ||| (n >>> 12), 0x80 ||| ((n >>> 6) &&& 0x3F), 0x80 ||| (n &&& 0x3F)]
  else
    [0xF0 ||| (n >>> 18), 0x80 ||| ((n >>> 12) &&& 0x3F),
     0x80 ||| ((n >>> 6) &&& 0x3F), 0x80 ||| (n &&& 0x3F)]

/-- UTF-8 encoding of a character list. -/
def utf8Encode (s : List Char) : List Nat := s.flatMap utf8EncodeChar

/-- Quote character chosen by CPython's `bytes.__repr__`: a single quote
unless the bytes contain `0x27` but no `0x22`, in which case a double
quote. -/
def pyReprQuote (bs : List Nat) : Nat :=
  if 0x27 ∈ bs ∧ 0x22 ∉ bs then 0x22 else 0x27

/-- Escaped rendering of one byte inside a Python `bytes` repr that uses
quote character `q`. -/
def pyEscapeByte (q : Nat) (b : Nat) : List Char :=
  if b = 0x5C then ['\\', '\\']
  else if b = q then ['\\', Char.ofNat q]
  else if b = 0x09 then ['\\', 't']
  else if b = 0x0A then ['\\', 'n']
  else if b = 0x0D then ['\\', 'r']
  else if 0x20 ≤ b ∧ b ≤ 0x7E then [Char.ofNat b]
  else ['\\', 'x', hexChar (b / 16 % 16), hexChar (b % 16)]

/-- CPython's `str(bytes)` / `repr(bytes)`: the letter `b`, the chosen quote,
the escaped bytes, and the closing quote. -/
def pyBytesRepr (bs : List Nat) : List Char :=
  let q := pyReprQuote bs
  'b' :: Char.ofNat q :: (bs.flatMap (pyEscapeByte q) ++ [Char.ofNat q])

/-- Python's slice `s[2:-1]` on a character list. -/
def pySlice2Neg1 (s : List Char) : List Char := (s.drop 2).dropLast

/-- Python's slice `l[-n:]` on a list (the whole list when it is shorter
than `n`). -/
def pyLastSlice (n : Nat) (l : List Nat) : List Nat := l.drop (l.length - n)

/-! ## MD5 (RFC 1321), over byte lists, all arithmetic mod `2 ^ 32` -/

/-- Modulus for 32-bit words. -/
def pow32 : Nat := 4294967296

/-- Rotate a 32-bit word left by `n` bits. -/
def rotl32 (x n : Nat) : Nat := ((x <<< n) ||| (x >>> (32 - n))) % pow32

/-- Bitwise complement on 32-bit words. -/
def not32 (x : Nat) : Nat := x ^^^ 0xFFFFFFFF

/-- MD5 per-round sine-derived constants `K[0..63]`. -/
def md5K : List Nat :=
  [0xd76aa478, 0xe8c7b756, 0x242070db, 0xc1bdceee,
   0xf57c0faf, 0x4787c62a, 0xa8304613, 0xfd469501,
   0x698098d8, 0x8b44f7af, 0xffff5bb1, 0x895cd7be,
   0x6b901122, 0xfd987193, 0xa679438e, 0x49b40821,
   0xf61e2562, 0xc040b340, 0x265e5a51, 0xe9b6c7aa,
   0xd62f105d, 0x02441453, 0xd8a1e681, 0xe7d3fbc8,
   0x21e1cde6, 0xc33707d6, 0xf4d50d87, 0x455a14ed,
   0xa9e3e905, 0xfcefa3f8, 0x676f02d9, 0x8d2a4c8a,
   0xfffa3942, 0x8771f681, 0x6d9d6122, 0xfde5380c,
   0xa4beea44, 0x4bdecfa9, 0xf6bb4b60, 0xbebfbc70,
   0x289b7ec6, 0xeaa127fa, 0xd4ef3085, 0x04881d05,
   0xd9d4d039, 0xe6db99e5, 0x1fa27cf8, 0xc4ac5665,
   0xf4292244, 0x432aff97, 0xab9423a7, 0xfc93a039,
   0x655b59c3, 0x8f0ccc92, 0xffeff47d, 0x85845dd1,
   0x6fa87e4f, 0xfe2ce6e0, 0xa3014314, 0x4e0811a1,
   0xf7537e82, 0xbd3af235, 0x2ad7d2bb, 0xeb86d391]

/-- MD5 per-round left-rotation amounts `s[0..63]`. -/
def md5S : List Nat :=
  [7, 12, 17, 22, 7, 12, 17, 22, 7, 12, 17, 22, 7, 12, 17, 22,
   5, 9, 14, 20, 5, 9, 14, 20, 5, 9, 14, 20, 5, 9, 14, 20,
   4, 11, 16, 23, 4, 11, 16, 23, 4, 11, 16, 23, 4, 11, 16, 23,
   6, 10, 15, 21, 6, 10, 15, 21, 6, 10, 15, 21, 6, 10, 15, 21]

/-- The four-word MD5 working state. -/
structure MD5State where
  a : Nat
  b : Nat
  c : Nat
  d : Nat
deriving DecidableEq, Repr

/-- Serialize `k` little-endian bytes of a word. -/
def toLEBytes : Nat → Nat → List Nat
  | 0, _ => []
  | k + 1, n => n % 256 :: toLEBytes k (n / 256)

/-- Group a byte list into little-endian 32-bit words, four bytes each. -/
def toWordsLE : List Nat → List Nat
  | b0 :: b1 :: b2 :: b3 :: rest =>
      (b0 + 256 * b1 + 65536 * b2 + 16777216 * b3) :: toWordsLE rest
  | _ => []

/-- One MD5 round applied to the state, with message words `M`. -/
def md5Step (M : List Nat) (st : MD5State) (i : Nat) : MD5State :=
  let f :=
    if i < 16 then (st.b &&& st.c) ||| (not32 st.b &&& st.d)
    else if i < 32 then (st.d &&& st.b) ||| (not32 st.d &&& st.c)
    else if i < 48 then st.b ^^^ st.c ^^^ st.d
    else st.c ^^^ (st.b ||| not32 st.d)
  let g :=
    if i < 16 then i
    else if i < 32 then (5 * i + 1) % 16
    else if i < 48 then (3 * i + 5) % 16
    else (7 * i) % 16
  let tmp := (f + st.a + md5K.getD i 0 + M.getD g 0) % pow32
  { a := st.d
    b := (st.b + rotl32 tmp (md5S.getD i 0)) % pow32
    c := st.b
    d := st.c }

/-- Process one 64-byte chunk: run 64 rounds, then add into the state. -/
def md5Chunk (st : MD5State) (chunk : List Nat) : MD5State :=
  let M := toWordsLE chunk
  let r := (List.range 64).foldl (md5Step M) st
  { a := (st.a + r.a) % pow32
    b := (st.b + r.b) % pow32
    c := (st.c + r.c) % pow32
    d := (st.d + r.d) % pow32 }

/-- MD5 padding: a `0x80` byte, zeros to 56 mod 64, then the 64-bit
little-endian bit length. -/
def md5Pad (msg : List Nat) : List Nat :=
  let padLen := (120 - (msg.length + 1) % 64) % 64
  msg ++ 0x80 :: (List.replicate padLen 0 ++ toLEBytes 8 (msg.length * 8))

/-- Split a byte list into 64-byte chunks, with a structural fuel argument
(`fuel` bounds the number of chunks; `l.length` always suffices). -/
def chunks64Fuel : Nat → List Nat → List (List Nat)
  | 0, _ => []
  | _, [] => []
  | fuel + 1, b :: rest => (b :: rest).take 64 :: chunks64Fuel fuel ((b :: rest).drop 64)

/-- Split a byte list into 64-byte chunks. -/
def chunks64 (l : List Nat) : List (List Nat) := chunks64Fuel l.length l

/-- MD5 digest of a byte list: 16 bytes. -/
def md5Bytes (msg : List Nat) : List Nat :=
  let fin := (chunks64 (md5Pad msg)).foldl md5Chunk
    { a := 0x67452301, b := 0xefcdab89, c := 0x98badcfe, d := 0x10325476 }
  toLEBytes 4 fin.a ++ toLEBytes 4 fin.b ++ toLEBytes 4 fin.c ++ toLEBytes 4 fin.d

/-- Embedding of `md5` in `src/app.py` (lines 26-42): UTF-8 encode the input
string and return the 32-character lowercase hex digest. -/
def md5 (input_string : String) : String :=
  ⟨toHexStr (md5Bytes (utf8Encode input_string.data))⟩

/-! ## Pipeline: key derivation and header stripping -/

/-- Errors raised by the embedded Python file operations: `osError` stands
for the `OSError` family raised by `open()` on a missing or unreadable
file. -/
inductive PyErr where
  | osError : PyErr
deriving DecidableEq, Repr

/-- Embedding of `Pipeline.get_key` (`src/app.py` lines 120-131).  The raw
file is `none` when it cannot be opened, otherwise `some` of its byte
contents.  `f.read(54)` returns at most 54 bytes; `header_chunk[-8:]` is the
Python tail slice; `str(seed_bytes)[2:-1]` strips the `b` and the quotes
from the bytes repr. -/
def get_key (nt_uid : String) (db_file : Option (List Nat)) : Except PyErr String :=
  match db_file with
  | none => .error .osError
  | some content =>
    let header_chunk := content.take 54
    let seed_bytes := pyLastSlice 8 header_chunk
    let seed_str : String := ⟨pySlice2Neg1 (pyBytesRepr seed_bytes)⟩
    let uid_hash := md5 nt_uid
    .ok (md5 (uid_hash ++ seed_str))

/-- Embedding of `Pipeline.remove_header` (`src/app.py` lines 133-139): the
destination receives `data[1024:]`; there is no length check in the
source. -/
def remove_header (source : Option (List Nat)) : Except PyErr (List Nat) :=
  match source with
  | none => .error .osError
  | some content => .ok (content.drop 1024)

/-! ## Pipeline: decryption backends -/

/-- Environment a `decrypt_db` call runs in: whether the `pysqlcipher3`
module load succeeded, whether its in-process export attempt succeeds, which
candidate shell binaries respond to the probe invocation, whether the
located shell exits with status zero, the shell's stderr text, and the
platform flag. -/
structure DecryptEnv where
  pysqlcipherPresent : Bool
  libExportOk : Bool
  probeOk : String → Bool
  cmdExitOk : String → Bool
  cmdStderr : String
  isWin32 : Bool

/-- Candidate executable names tried by `Pipeline._find_sqlcipher_binary`
(`src/app.py` lines 141-157). -/
def sqlcipherCandidates (win : Bool) : List String :=
  let base := ["sqlcipher", "sqlcipher-x64", "sqlcipher-x86"]
  if win then base.map (fun c => c ++ ".exe") else base

/-- Embedding of `Pipeline._find_sqlcipher_binary`: the first candidate
whose probe run succeeds, if any. -/
def find_sqlcipher_binary (env : DecryptEnv) : Option String :=
  (sqlcipherCandidates env.isWin32).find? env.probeOk

/-- Outcome of a `Pipeline.decrypt_db` call: success, the exception raised
when the located command-line tool exits non-zero, or the final
no-usable-backend exception. -/
inductive DecryptResult where
  | ok
  | cmdError (msg : String)
  | unavailable (detail : String)
deriving DecidableEq, Repr

/-- Message prefix of the exception raised when the command-line tool exits
with non-zero status (`src/app.py` line 233). -/
def cmdErrPrefix : String := "命令行 sqlcipher 执行出错: "

/-- Remediation text of the final exception when no backend is usable
(`src/app.py` lines 236-241). -/
def decryptRemediation : String :=
  "无法解密数据库。后端未检测到 pysqlcipher3 库，也未在 PATH 中找到 sqlcipher/sqlcipher-x64/sqlcipher-x86 可执行文件。\n" ++
  "请参照项目 GitHub 页面配置环境，或者访问 https://docs.aaqwq.top/decrypt/decode_db.html " ++
  "手动获取 group_info.decrypted.db 后使用「阶段3」导入。"

/-- Decide whether a decrypt outcome is the final no-backend exception. -/
def DecryptResult.isUnavailable : DecryptResult → Bool
  | .unavailable _ => true
  | _ => false

/-- Embedding of `Pipeline.decrypt_db` (`src/app.py` lines 159-241).
Backend 1 (the `pysqlcipher3` library) runs only when the import succeeded;
any exception it raises is caught and control falls through to backend 2
(the command-line tool).  Backend 2 raises a `cmdError` on non-zero exit;
when no binary is found the final `unavailable` exception carries the
remediation text. -/
def decrypt_db (env : DecryptEnv) : DecryptResult :=
  if env.pysqlcipherPresent && env.libExportOk then .ok
  else
    match find_sqlcipher_binary env with
    | some cmd =>
        if env.cmdExitOk cmd then .ok
        else .cmdError (cmdErrPrefix ++ env.cmdStderr)
    | none => .unavailable decryptRemediation

/-! ## Analysis data model and ETL -/

/-- A row of the `members` table (`src/app.py` lines 63-69).  `user_name`
and `user_group_name` keep SQL NULL as `none`. -/
structure MemberRow where
  group_id : String
  user_id : String
  user_name : Option String
  user_group_name : Option String
deriving DecidableEq, Repr

/-- One account's analysis schema: the `groups` table as
`(group_id, group_name)` pairs and the `members` table. -/
structure AnalysisDB where
  groups : List (String × String)
  members : List MemberRow
deriving DecidableEq, Repr

/-- The decrypted raw database, with the two tables the ETL reads.  A cell
is `none` for SQL NULL and otherwise `some` of the cell's `str()`
rendering. -/
structure RawDB where
  group_list : List (List (Option String))
  group_member3 : List (List (Option String))

/-- Python's `str()` of a raw cell (`str(None)` is the text `None`). -/
def cellStr : Option String → String
  | none => "None"
  | some s => s

/-- Python truthiness of a raw cell: NULL and the empty string are falsy. -/
def truthy : Option String → Bool
  | none => false
  | some s => s ≠ ""

/-- Key-based upsert, the effect of `session.merge`: if a row with the same
key exists it is replaced in place, otherwise the row is appended. -/
def upsertBy {α κ : Type} [BEq κ] (key : α → κ) (l : List α) (x : α) : List α :=
  if l.any (fun y => key y == key x) then
    l.map (fun y => if key y == key x then x else y)
  else l ++ [x]

/-- Upsert into the `groups` table, keyed by `group_id`. -/
def upsertG (gs : List (String × String)) (g : String × String) : List (String × String) :=
  upsertBy Prod.fst gs g

/-- Upsert into the `members` table, keyed by `(group_id, user_id)`. -/
def upsertM (ms : List MemberRow) (m : MemberRow) : List MemberRow :=
  upsertBy (fun r => (r.group_id, r.user_id)) ms m

/-- Group migration loop of `Pipeline.clean_data_to_analysis_db`
(`src/app.py` lines 259-264): rows with more than 5 columns are merged with
`str(row[0])` as id and `str(row[5])` as name. -/
def etlGroups (rows : List (List (Option String))) : List (String × String) :=
  rows.foldl
    (fun acc row =>
      if row.length > 5 then
        upsertG acc (cellStr (row.getD 0 none), cellStr (row.getD 5 none))
      else acc)
    []

/-- Member loop body of `Pipeline.clean_data_to_analysis_db` (`src/app.py`
lines 273-293): skip short rows and NULL ids, skip the importing account
itself, and fall back to the user name when the nickname cell is falsy. -/
def etlMemberRow (target_qq_id : String) (row : List (Option String)) : Option MemberRow :=
  if row.length ≤ 5 then none
  else
    match row.getD 2 none, row.getD 5 none with
    | some gCell, some uCell =>
      let g_nick := row.getD 0 none
      let u_name := row.getD 1 none
      let g_id := gCell
      let u_id := uCell
      if u_id == target_qq_id then none
      else
        some { group_id := g_id, user_id := u_id, user_name := u_name
               user_group_name := if truthy g_nick then g_nick else u_name }
    | _, _ => none

/-- Whether a member list would violate the `(group_id, user_id)` primary
key on insertion: `bulk_save_objects` issues plain INSERTs into the freshly
cleared table, so duplicate keys raise an `IntegrityError`. -/
def hasDupPK (ms : List MemberRow) : Bool :=
  !(ms.map fun m => (m.group_id, m.user_id)).Nodup

/-- Embedding of `Pipeline.clean_data_to_analysis_db` (`src/app.py` lines
243-308).  The body first deletes every `Member` and `Group` row of the
target account, so the committed result never depends on `old`; batching in
groups of 5000 does not change the inserted rows.  A duplicate primary key
makes the write fail and the transaction roll back, which `runClean` models
by keeping `old`. -/
def cleanImportE (src : RawDB) (target_qq_id : String) (old : AnalysisDB) :
    Except String AnalysisDB :=
  let gs := etlGroups src.group_list
  let ms := src.group_member3.filterMap (etlMemberRow target_qq_id)
  if hasDupPK ms then .error "数据清洗失败"
  else .ok { groups := gs, members := ms }

/-- The analysis-schema state after a `clean_data_to_analysis_db` call: the
new contents on commit, the prior contents on rollback. -/
def runClean (src : RawDB) (target_qq_id : String) (old : AnalysisDB) : AnalysisDB :=
  match cleanImportE src target_qq_id old with
  | .ok newDB => newDB
  | .error _ => old

/-- Member rows present after the raw-table import completed; a
rolled-back run contributes none. -/
def okMembers : Except String AnalysisDB → List MemberRow
  | .ok db => db.members
  | .error _ => []

/-! ## Structured JSON import -/

/-- One member object of the structured JSON payload; absent keys are
`none`. -/
structure JMember where
  user_name : Option String
  user_group_name : Option String
deriving DecidableEq, Repr

/-- One group object of the structured JSON payload, with its member map in
insertion order. -/
structure JGroup where
  group_name : Option String
  members : List (String × JMember)
deriving DecidableEq, Repr

/-- The parsed JSON payload: group id to group object, in insertion order. -/
def JPayload : Type := List (String × JGroup)

/-- The member row built by `process_json` (`src/app.py` lines 510-515):
missing `user_name` or `user_group_name` keys default to the empty
string. -/
def jsonMemberRow (gid uid : String) (u : JMember) : MemberRow :=
  { group_id := gid, user_id := uid
    user_name := some (u.user_name.getD "")
    user_group_name := some (u.user_group_name.getD "") }

/-- Inner loop of `process_json`: merge each member of one group, skipping
the importing account itself. -/
def jsonInsertMembers (qq_id gid : String) (ms : List (String × JMember))
    (db : AnalysisDB) : AnalysisDB :=
  ms.foldl
    (fun db p =>
      if p.1 == qq_id then db
      else { db with members := upsertM db.members (jsonMemberRow gid p.1 p.2) })
    db

/-- Outer loop body of `process_json`: merge the group row (name defaults to
`Unknown`), then its members. -/
def jsonInsertGroup (qq_id : String) (db : AnalysisDB) (p : String × JGroup) : AnalysisDB :=
  jsonInsertMembers qq_id p.1 p.2.members
    { db with groups := upsertG db.groups (p.1, p.2.group_name.getD "Unknown") }

/-- Embedding of `process_json` (`src/app.py` lines 487-521): all `Member`
then `Group` rows are deleted before the payload is merged in, so the
result never depends on the prior contents `old`. -/
def process_json (payload : JPayload) (qq_id : String) (old : AnalysisDB) : AnalysisDB :=
  payload.foldl (jsonInsertGroup qq_id) { groups := [], members := [] }

/-! ## Query engine -/

/-- SQLite's `max()` aggregate over a `user_name` column: NULLs are ignored
and the result is NULL when every input is. -/
def sqlMaxName (l : List (Option String)) : Option String :=
  l.foldl
    (fun acc x =>
      match acc, x with
      | none, x => x
      | some a, none => some a
      | some a, some b => some (max a b))
    none

/-- The `user_name` SQLite reports for a bare (non-aggregated) column under
`GROUP BY user_id`: the value from one row of the user's group; which row
is unspecified, modelled as the first. -/
def firstUserName (db : AnalysisDB) (u : String) : Option String :=
  match db.members.find? (fun m => m.user_id == u) with
  | some m => m.user_name
  | none => none

/-- A user's number of distinct groups among the member rows. -/
def distinctGroupCount (db : AnalysisDB) (u : String) : Nat :=
  ((db.members.filter (fun m => m.user_id == u)).map (fun m => m.group_id)).dedup.length

/-- The `(group_id, user_id)` primary-key constraint of the `members`
table, which every analysis schema satisfies. -/
def PKNodup (db : AnalysisDB) : Prop :=
  (db.members.map fun m => (m.group_id, m.user_id)).Nodup

instance (db : AnalysisDB) : Decidable (PKNodup db) := by
  unfold PKNodup; infer_instance

/-- Embedding of `get_frequent_users` (`src/app.py` lines 536-552): group
the member rows by `user_id`, keep users whose row count (equal to
`count(group_id)`, since `group_id` is never NULL) reaches `min_groups`,
and order by that count descending. -/
def get_frequent_users (db : AnalysisDB) (min_groups : Int) :
    List (String × Option String × Nat) :=
  let users := (db.members.map fun m => m.user_id).dedup
  let rows := users.filterMap fun u =>
    let cnt := (db.members.filter (fun m => m.user_id == u)).length
    if min_groups ≤ (cnt : Int) then some (u, firstUserName db u, cnt) else none
  List.insertionSort (fun a b => b.2.2 ≤ a.2.2) rows

/-- Embedding of `analyze_intersection` (`src/app.py` lines 574-588): an
empty id list returns early; otherwise group the rows whose `group_id` is
in the list by `user_id` and keep the users whose distinct-group count
equals the length of the list (duplicates counted). -/
def analyze_intersection (db : AnalysisDB) (group_ids : List String) :
    List (String × Option String) :=
  if group_ids.isEmpty then []
  else
    let target_len := group_ids.length
    let relevant := db.members.filter (fun m => group_ids.contains m.group_id)
    let users := (relevant.map fun m => m.user_id).dedup
    users.filterMap fun u =>
      let rows := relevant.filter (fun m => m.user_id == u)
      if ((rows.map fun m => m.group_id).dedup).length = target_len then
        some (u, sqlMaxName (rows.map fun m => m.user_name))
      else none

/-! ## Helper lemmas -/

theorem toLEBytes_length (k n : Nat) : (toLEBytes k n).length = k := by
  induction k generalizing n with
  | zero => rfl
  | succ k ih => simp [toLEBytes, ih]

theorem md5Bytes_length (msg : List Nat) : (md5Bytes msg).length = 16 := by
  unfold md5Bytes
  simp [toLEBytes_length]

theorem toHexStr_length (bs : List Nat) : (toHexStr bs).length = 2 * bs.length := by
  induction bs with
  | nil => rfl
  | cons b bs ih =>
    simp only [toHexStr, List.flatMap_cons] at *
    simp [ih]
    omega

theorem hexChar_mem (n : Nat) : hexChar n ∈ hexDigits := by
  unfold hexChar
  by_cases h : n < hexDigits.length
  · exact List.getD_eq_getElem hexDigits '0' h ▸ List.getElem_mem h
  · rw [List.getD_eq_default hexDigits '0' (by omega)]
    decide

theorem toHexStr_mem (bs : List Nat) : ∀ ch ∈ toHexStr bs, ch ∈ hexDigits := by
  intro ch hch
  simp only [toHexStr, List.mem_flatMap] at hch
  obtain ⟨b, _, hb⟩ := hch
  simp only [List.mem_cons, List.not_mem_nil, or_false] at hb
  rcases hb with h | h <;> exact h ▸ hexChar_mem _

theorem md5_data_length (s : String) : (md5 s).data.length = 32 := by
  show (toHexStr (md5Bytes (utf8Encode s.data))).length = 32
  rw [toHexStr_length, md5Bytes_length]

theorem md5_data_hex (s : String) : ∀ ch ∈ (md5 s).data, ch ∈ hexDigits :=
  toHexStr_mem _

/-! ## C1: key derivation -/

/-- C1.  For every installation identifier and every raw file of at least 54
readable bytes, `Pipeline.get_key` returns
`hex(MD5(hex(MD5(installationId)) + seedString))` where `seedString` is the
Python bytes-repr of bytes 46..53 of the file with the `b`-and-quote prefix
and the closing quote stripped; the key is a 32-character string of
lowercase hex digits.  Determinism is immediate: `get_key` is embedded as a
pure function of its two arguments. -/
theorem get_key_spec (nt_uid : String) (content : List Nat) (h : 54 ≤ content.length) :
    get_key nt_uid (some content) =
      .ok (md5 (md5 nt_uid ++ ⟨pySlice2Neg1 (pyBytesRepr ((content.take 54).drop 46))⟩))
    ∧ ∀ k, get_key nt_uid (some content) = .ok k →
        k.data.length = 32 ∧ ∀ ch ∈ k.data, ch ∈ hexDigits := by
  have htake : (content.take 54).length = 54 := by
    rw [List.length_take]; omega
  have hseed : pyLastSlice 8 (content.take 54) = (content.take 54).drop 46 := by
    unfold pyLastSlice; rw [htake]
  constructor
  · show Except.ok _ = _
    rw [hseed]
  · intro k hk
    rw [show get_key nt_uid (some content) =
          .ok (md5 (md5 nt_uid ++ ⟨pySlice2Neg1 (pyBytesRepr (pyLastSlice 8 (content.take 54)))⟩))
        from rfl] at hk
    cases hk
    exact ⟨md5_data_length _, md5_data_hex _⟩

/-- Witness for C1 at a concrete 54-byte file of `A` bytes. -/
theorem get_key_spec_witness :
    get_key "testuid" (some (List.replicate 54 65)) =
      .ok (md5 (md5 "testuid" ++
        ⟨pySlice2Neg1 (pyBytesRepr (((List.replicate 54 65).take 54).drop 46))⟩)) :=
  (get_key_spec "testuid" (List.replicate 54 65) (by rw [List.length_replicate])).1

/-! ## C7: header stripping -/

/-- C7, amended.  `Pipeline.remove_header` writes exactly the input bytes
from offset 1024 on, so for inputs of at least 1024 bytes the output length
is the input length minus 1024; for shorter inputs the source has no length
check and succeeds with an empty output instead of failing; only an
unreadable source file raises an error. -/
theorem remove_header_spec (content : List Nat) :
    remove_header (some content) = .ok (content.drop 1024)
    ∧ (1024 ≤ content.length → (content.drop 1024).length = content.length - 1024)
    ∧ (content.length < 1024 → remove_header (some content) = .ok [])
    ∧ remove_header none = .error .osError := by
  refine ⟨rfl, fun _ => by simp, fun hlt => ?_, rfl⟩
  show Except.ok _ = _
  rw [List.drop_eq_nil_of_le (by omega)]

/-- Witness for C7 at a concrete 2000-byte input. -/
theorem remove_header_spec_witness :
    ((List.replicate 2000 (7 : Nat)).drop 1024).length =
      (List.replicate 2000 (7 : Nat)).length - 1024 :=
  (remove_header_spec (List.replicate 2000 7)).2.1 (by rw [List.length_replicate]; omega)

/-- Counterexample for C7 as stated: a 10-byte input makes
`Pipeline.remove_header` succeed with empty output; it does not fail. -/
theorem remove_header_short_cex :
    remove_header (some (List.replicate 10 (0 : Nat))) = .ok []
    ∧ (remove_header (some (List.replicate 10 (0 : Nat)))).isOk = true := by
  constructor <;> rfl

/-! ## C9: key derivation on short files -/

/-- C9, amended.  `Pipeline.get_key` raises only when the file cannot be
opened; for every readable file — including files shorter than 54 bytes —
it succeeds and returns a key computed from the last `min(8, n)` bytes the
source managed to read. -/
theorem get_key_total (nt_uid : String) (content : List Nat) :
    get_key nt_uid none = .error .osError
    ∧ (get_key nt_uid (some content)).isOk = true :=
  ⟨rfl, rfl⟩

/-- Counterexample for C9 as stated: an empty (0 < 54 bytes) file makes
`Pipeline.get_key` succeed, returning `md5(md5(uid) + "")`. -/
theorem get_key_short_cex :
    (get_key "u" (some [])).isOk = true
    ∧ get_key "u" (some []) = .ok (md5 (md5 "u" ++ "")) := by
  constructor <;> rfl

/-! ## C4: decrypt backends -/

/-- C4, amended.  When the in-process backend fails, `Pipeline.decrypt_db`
falls through to the external backend exactly as if the library were
absent; when no candidate executable responds to the probe, it fails with
the final exception carrying the remediation text; but when an executable
is found and exits with non-zero status, it raises a command-execution
error that does not carry the remediation text; a found executable with a
zero exit succeeds. -/
theorem decrypt_fallback_spec (env : DecryptEnv) (h1 : env.libExportOk = false) :
    decrypt_db env = decrypt_db { env with pysqlcipherPresent := false }
    ∧ (find_sqlcipher_binary env = none →
        decrypt_db env = .unavailable decryptRemediation)
    ∧ (∀ cmd, find_sqlcipher_binary env = some cmd → env.cmdExitOk cmd = false →
        decrypt_db env = .cmdError (cmdErrPrefix ++ env.cmdStderr))
    ∧ (∀ cmd, find_sqlcipher_binary env = some cmd → env.cmdExitOk cmd = true →
        decrypt_db env = .ok) := by
  have hskip : decrypt_db env =
      match find_sqlcipher_binary env with
      | some cmd =>
          if env.cmdExitOk cmd then .ok
          else .cmdError (cmdErrPrefix ++ env.cmdStderr)
      | none => .unavailable decryptRemediation := by
    unfold decrypt_db
    rw [h1, Bool.and_false]
    rfl
  refine ⟨?_, fun hn => by rw [hskip, hn], fun cmd hc hx => by rw [hskip, hc]; simp [hx],
    fun cmd hc hx => by rw [hskip, hc]; simp [hx]⟩
  rw [hskip]
  show _ = decrypt_db { env with pysqlcipherPresent := false }
  unfold decrypt_db
  rfl

/-- Environment with the library absent, no candidate binary responding. -/
def noBackendEnv : DecryptEnv :=
  { pysqlcipherPresent := false, libExportOk := false, probeOk := fun _ => false
    cmdExitOk := fun _ => false, cmdStderr := "", isWin32 := false }

/-- Witness for C4 at a concrete environment with no usable backend. -/
theorem decrypt_fallback_witness :
    decrypt_db noBackendEnv = .unavailable decryptRemediation :=
  (decrypt_fallback_spec noBackendEnv rfl).2.1 rfl

/-- Environment where the library attempt throws, the first candidate
binary is found, and its invocation exits with non-zero status. -/
def cmdFailEnv : DecryptEnv :=
  { pysqlcipherPresent := true, libExportOk := false, probeOk := fun _ => true
    cmdExitOk := fun _ => false, cmdStderr := "boom", isWin32 := false }

/-- Counterexample for C4 as stated: with backend 1 failing and the located
`sqlcipher` binary exiting non-zero, the raised error is the
command-execution exception, not the `DecryptionUnavailable` one carrying
remediation text. -/
theorem decrypt_nonzero_exit_cex :
    decrypt_db cmdFailEnv = .cmdError (cmdErrPrefix ++ "boom")
    ∧ (decrypt_db cmdFailEnv).isUnavailable = false := by
  constructor <;> rfl

/-! ## C8: nickname fallback -/

/-- C8, amended.  In the raw-table ETL a produced member's in-group
nickname is column 0 when that cell is non-NULL and non-empty, and the
user-name cell otherwise; in the structured JSON import a member whose
payload omits `user_group_name` gets the empty string, not the user
name. -/
theorem nickname_fallback_spec (t : String) (row : List (Option String)) (m : MemberRow)
    (gid uid : String) (u : JMember) :
    (etlMemberRow t row = some m →
      m.user_group_name =
        if truthy (row.getD 0 none) then row.getD 0 none else row.getD 1 none)
    ∧ (u.user_group_name = none →
        (jsonMemberRow gid uid u).user_group_name = some "") := by
  constructor
  · intro h
    unfold etlMemberRow at h
    split at h
    · exact absurd h (by simp)
    · split at h
      · dsimp only at h
        split at h
        · exact absurd h (by simp)
        · cases h; rfl
      · exact absurd h (by simp)
  · intro h
    simp [jsonMemberRow, h]

/-- A concrete `group_member3` row with an empty nickname cell. -/
def exRawRow : List (Option String) :=
  [some "", some "Bob", some "G1", none, none, some "U1"]

/-- The member row the ETL produces from `exRawRow` for account `1000`. -/
def exEtlRow : MemberRow :=
  { group_id := "G1", user_id := "U1", user_name := some "Bob"
    user_group_name := some "Bob" }

/-- Witness for C8 at concrete inputs for both import paths. -/
theorem nickname_fallback_witness :
    (exEtlRow.user_group_name =
      if truthy (exRawRow.getD 0 none) then exRawRow.getD 0 none else exRawRow.getD 1 none)
    ∧ (jsonMemberRow "G1" "U1" { user_name := some "Bob", user_group_name := none }).user_group_name
        = some "" :=
  ⟨(nickname_fallback_spec "1000" exRawRow exEtlRow "G1" "U1"
      { user_name := some "Bob", user_group_name := none }).1 (by decide),
   (nickname_fallback_spec "1000" exRawRow exEtlRow "G1" "U1"
      { user_name := some "Bob", user_group_name := none }).2 rfl⟩

/-- A structured payload whose single member omits `user_group_name`. -/
def jsonNoNickPayload : JPayload :=
  [("G1", { group_name := some "X"
            members := [("U1", { user_name := some "Bob", user_group_name := none })] })]

/-- Counterexample for C8 as stated: importing `jsonNoNickPayload` stores
the empty string as the member's `user_group_name`, which differs from the
member's `user_name`. -/
theorem json_nickname_cex :
    (process_json jsonNoNickPayload "1000" { groups := [], members := [] }).members =
      [{ group_id := "G1", user_id := "U1", user_name := some "Bob"
         user_group_name := some "" }]
    ∧ (some "" : Option String) ≠ some "Bob" := by
  constructor
  · rfl
  · decide

/-! ## C2: self-exclusion -/

theorem mem_upsertBy {α κ : Type} [BEq κ] (key : α → κ) (l : List α) (x m : α)
    (h : m ∈ upsertBy key l x) : m ∈ l ∨ m = x := by
  unfold upsertBy at h
  split at h
  · obtain ⟨y, hy, hyx⟩ := List.mem_map.1 h
    split at hyx
    · exact Or.inr hyx.symm
    · exact Or.inl (hyx ▸ hy)
  · rcases List.mem_append.1 h with h | h
    · exact Or.inl h
    · exact Or.inr (List.mem_singleton.1 h)

theorem etlMemberRow_user_ne (t : String) (row : List (Option String)) (m : MemberRow)
    (h : etlMemberRow t row = some m) : m.user_id ≠ t := by
  unfold etlMemberRow at h
  split at h
  · exact absurd h (by simp)
  · split at h
    · dsimp only at h
      split at h
      · exact absurd h (by simp)
      · rename_i hne
        cases h
        simpa using hne
    · exact absurd h (by simp)

theorem jsonInsertMembers_user_ne (q g : String) (ms : List (String × JMember))
    (db : AnalysisDB) (hdb : ∀ m ∈ db.members, m.user_id ≠ q) :
    ∀ m ∈ (jsonInsertMembers q g ms db).members, m.user_id ≠ q := by
  induction ms generalizing db with
  | nil => exact hdb
  | cons p ps ih =>
    show ∀ m ∈ (jsonInsertMembers q g ps _).members, m.user_id ≠ q
    apply ih
    intro m hm
    dsimp only at hm
    split at hm
    · exact hdb m hm
    · rename_i hpq
      rcases mem_upsertBy _ _ _ _ hm with h | h
      · exact hdb m h
      · subst h
        simpa [jsonMemberRow] using fun hc => hpq (by simp [hc])

theorem process_json_user_ne (payload : JPayload) (q : String) (old : AnalysisDB) :
    ∀ m ∈ (process_json payload q old).members, m.user_id ≠ q := by
  unfold process_json
  have step : ∀ (ps : JPayload) (db : AnalysisDB), (∀ m ∈ db.members, m.user_id ≠ q) →
      ∀ m ∈ (ps.foldl (jsonInsertGroup q) db).members, m.user_id ≠ q := by
    intro ps
    induction ps with
    | nil => exact fun db hdb => hdb
    | cons p ps ih =>
      intro db hdb
      rw [List.foldl_cons]
      exact ih _ (jsonInsertMembers_user_ne q p.1 p.2.members _ hdb)
  exact step payload { groups := [], members := [] } (by simp)

/-- C2.  After either import path completes, no member row carries the
importing account's own identifier, whatever the source contained: the
raw-table ETL skips rows whose user id equals the account id, and the
structured JSON import skips such payload entries; a rolled-back raw import
contributes no rows at all. -/
theorem import_self_exclusion (src : RawDB) (t : String) (old : AnalysisDB)
    (payload : JPayload) :
    ((okMembers (cleanImportE src t old)).all fun m => m.user_id != t) = true
    ∧ (((process_json payload t old).members).all fun m => m.user_id != t) = true := by
  constructor
  · rw [List.all_eq_true]
    intro m hm
    unfold cleanImportE at hm
    dsimp only at hm
    split at hm
    · simp [okMembers] at hm
    · simp only [okMembers] at hm
      obtain ⟨row, _, hrow⟩ := List.mem_filterMap.1 hm
      simpa using etlMemberRow_user_ne t row m hrow
  · rw [List.all_eq_true]
    intro m hm
    simpa using process_json_user_ne payload t old m hm

/-! ## C3: idempotent overwrite, full replacement -/

/-- C3.  Both import paths delete every prior `Group`/`Member` row before
repopulating: importing the same source twice leaves the state of a single
run, and the outcome of an import is independent of whatever state the
account held before, so a completed import of a different source leaves no
residual rows from an earlier one. -/
theorem import_overwrite (src src2 : RawDB) (p p2 : JPayload) (t : String)
    (db db' : AnalysisDB) :
    runClean src t (runClean src t db) = runClean src t db
    ∧ cleanImportE src2 t db = cleanImportE src2 t db'
    ∧ process_json p t (process_json p t db) = process_json p t db
    ∧ process_json p2 t db = process_json p2 t db' := by
  refine ⟨?_, rfl, rfl, rfl⟩
  unfold runClean
  cases hE : cleanImportE src t db with
  | ok n => rw [show cleanImportE src t n = Except.ok n from hE]
  | error e => rw [show cleanImportE src t db = Except.error e from hE]

/-! ## C6: frequent users -/

theorem pk_filter_group_nodup (db : AnalysisDB) (hPK : PKNodup db) (u : String) :
    ((db.members.filter fun m => m.user_id == u).map fun m => m.group_id).Nodup := by
  have hpairs :
      ((db.members.filter fun m => m.user_id == u).map fun m => (m.group_id, m.user_id)).Nodup :=
    hPK.sublist ((List.filter_sublist _).map _)
  have hrw :
      ((db.members.filter fun m => m.user_id == u).map fun m => m.group_id) =
        ((db.members.filter fun m => m.user_id == u).map fun m =>
          (m.group_id, m.user_id)).map Prod.fst := by
    rw [List.map_map]
    rfl
  rw [hrw]
  refine hpairs.map_on ?_
  intro x hx y hy hxy
  obtain ⟨mx, hmx, rfl⟩ := List.mem_map.1 hx
  obtain ⟨my, hmy, rfl⟩ := List.mem_map.1 hy
  have hux : mx.user_id = u := by simpa using (List.mem_filter.1 hmx).2
  have huy : my.user_id = u := by simpa using (List.mem_filter.1 hmy).2
  simp only at hxy
  exact Prod.ext hxy (hux.trans huy.symm)

theorem count_eq_distinct (db : AnalysisDB) (hPK : PKNodup db) (u : String) :
    (db.members.filter fun m => m.user_id == u).length = distinctGroupCount db u := by
  unfold distinctGroupCount
  rw [List.dedup_eq_self.2 (pk_filter_group_nodup db hPK u), List.length_map]

/-- C6.  Under the `(group_id, user_id)` primary key every analysis schema
satisfies, `get_frequent_users` returns a list sorted by group count
descending, each returned row carries the user's distinct-group count with
`min_groups ≤ count`, and every user of the member table whose
distinct-group count reaches `min_groups` is returned with that count. -/
theorem frequent_users_spec (db : AnalysisDB) (min_groups : Int) (hPK : PKNodup db) :
    List.Sorted (fun a b : String × Option String × Nat => b.2.2 ≤ a.2.2)
      (get_frequent_users db min_groups)
    ∧ (∀ r ∈ get_frequent_users db min_groups,
        r.2.2 = distinctGroupCount db r.1 ∧ min_groups ≤ (r.2.2 : Int))
    ∧ (∀ u, u ∈ db.members.map (fun m => m.user_id) →
        min_groups ≤ (distinctGroupCount db u : Int) →
        (u, firstUserName db u, distinctGroupCount db u) ∈ get_frequent_users db min_groups) := by
  haveI : IsTotal (String × Option String × Nat) (fun a b => b.2.2 ≤ a.2.2) :=
    ⟨fun a b => le_total b.2.2 a.2.2⟩
  haveI : IsTrans (String × Option String × Nat) (fun a b => b.2.2 ≤ a.2.2) :=
    ⟨fun _ _ _ hab hbc => le_trans hbc hab⟩
  refine ⟨List.sorted_insertionSort _ _, ?_, ?_⟩
  · intro r hr
    have hrows := (List.perm_insertionSort
      (fun a b : String × Option String × Nat => b.2.2 ≤ a.2.2) _).mem_iff.1 hr
    obtain ⟨u, _, hfu⟩ := List.mem_filterMap.1 hrows
    dsimp only at hfu
    split at hfu
    · rename_i hguard
      cases hfu
      exact ⟨count_eq_distinct db hPK u, hguard⟩
    · exact absurd hfu (by simp)
  · intro u hu hcnt
    apply (List.perm_insertionSort
      (fun a b : String × Option String × Nat => b.2.2 ≤ a.2.2) _).mem_iff.2
    apply List.mem_filterMap.2
    refine ⟨u, List.mem_dedup.2 hu, ?_⟩
    dsimp only
    rw [count_eq_distinct db hPK u, if_pos hcnt]

/-- Scenario schema of spec §8: groups `G1` (Alpha) and `G2` (Beta),
members A, B, C in `G1` and B, C, D in `G2`. -/
def exDB : AnalysisDB :=
  { groups := [("G1", "Alpha"), ("G2", "Beta")]
    members :=
      [{ group_id := "G1", user_id := "A", user_name := some "An", user_group_name := some "An" },
       { group_id := "G1", user_id := "B", user_name := some "Bn", user_group_name := some "Bn" },
       { group_id := "G1", user_id := "C", user_name := some "Cn", user_group_name := some "Cn" },
       { group_id := "G2", user_id := "B", user_name := some "Bn", user_group_name := some "Bn" },
       { group_id := "G2", user_id := "C", user_name := some "Cn", user_group_name := some "Cn" },
       { group_id := "G2", user_id := "D", user_name := some "Dn", user_group_name := some "Dn" }] }

/-- Witness for C6 at the concrete scenario schema. -/
theorem frequent_users_spec_witness :
    List.Sorted (fun a b : String × Option String × Nat => b.2.2 ≤ a.2.2)
      (get_frequent_users exDB 2) :=
  (frequent_users_spec exDB 2 (by decide)).1

/-! ## C5 and C10: multi-group intersection -/

theorem inter_dedup_subset (db : AnalysisDB) (gids : List String) (u : String) :
    (((db.members.filter fun m => gids.contains m.group_id).filter
        fun m => m.user_id == u).map fun m => m.group_id).dedup ⊆ gids := by
  intro g hg
  rw [List.mem_dedup] at hg
  obtain ⟨m, hm, rfl⟩ := List.mem_map.1 hg
  simpa using (List.mem_filter.1 (List.mem_filter.1 hm).1).2

theorem inter_guard_iff (db : AnalysisDB) (gids : List String) (u : String)
    (hnd : gids.Nodup) :
    ((((db.members.filter fun m => gids.contains m.group_id).filter
        fun m => m.user_id == u).map fun m => m.group_id).dedup.length = gids.length)
    ↔ ∀ g ∈ gids, ∃ m ∈ db.members, m.group_id = g ∧ m.user_id = u := by
  have hDnodup :
      ((((db.members.filter fun m => gids.contains m.group_id).filter
        fun m => m.user_id == u).map fun m => m.group_id).dedup).Nodup :=
    List.nodup_dedup _
  have hDsub := inter_dedup_subset db gids u
  constructor
  · intro hlen g hg
    have hperm := (hDnodup.subperm hDsub).perm_of_length_le (le_of_eq hlen.symm)
    have hgD := hperm.mem_iff.2 hg
    rw [List.mem_dedup] at hgD
    obtain ⟨m, hm, hmg⟩ := List.mem_map.1 hgD
    have hmdb : m ∈ db.members := (List.mem_filter.1 (List.mem_filter.1 hm).1).1
    have hmu : m.user_id = u := by simpa using (List.mem_filter.1 hm).2
    exact ⟨m, hmdb, hmg, hmu⟩
  · intro h
    have hgsub : gids ⊆
        (((db.members.filter fun m => gids.contains m.group_id).filter
          fun m => m.user_id == u).map fun m => m.group_id).dedup := by
      intro g hg
      obtain ⟨m, hmdb, hmg, hmu⟩ := h g hg
      rw [List.mem_dedup]
      refine List.mem_map.2 ⟨m, ?_, hmg⟩
      refine List.mem_filter.2 ⟨List.mem_filter.2 ⟨hmdb, ?_⟩, ?_⟩
      · simp [hmg, hg]
      · simp [hmu]
    exact Nat.le_antisymm (hDnodup.subperm hDsub).length_le (hnd.subperm hgsub).length_le

/-- C5, amended.  `analyze_intersection` of the empty list is empty, and for
every non-empty duplicate-free list of group ids the returned user ids are
exactly the users who are members of every listed group (for a one-element
list `[g]` this is exactly the membership of `g`).  The amendment restricts
the id list to be duplicate-free; with duplicates the implementation
returns an empty result instead (see the companion duplicate theorems). -/
theorem intersection_spec (db : AnalysisDB) (gids : List String) (u : String)
    (hne : gids ≠ []) (hnd : gids.Nodup) :
    analyze_intersection db [] = []
    ∧ (u ∈ (analyze_intersection db gids).map Prod.fst ↔
        ∀ g ∈ gids, ∃ m ∈ db.members, m.group_id = g ∧ m.user_id = u) := by
  refine ⟨rfl, ?_⟩
  unfold analyze_intersection
  rw [if_neg (by simpa using hne)]
  dsimp only
  constructor
  · intro hu
    obtain ⟨r, hr, hru⟩ := List.mem_map.1 hu
    obtain ⟨u', hu', hfu⟩ := List.mem_filterMap.1 hr
    split at hfu
    · rename_i hguard
      cases hfu
      have huu : u' = u := hru
      subst huu
      exact (inter_guard_iff db gids u' hnd).1 hguard
    · exact absurd hfu (by simp)
  · intro h
    obtain ⟨g₀, hg₀⟩ := List.exists_mem_of_ne_nil gids hne
    obtain ⟨m₀, hm₀db, hm₀g, hm₀u⟩ := h g₀ hg₀
    have hm₀rel : m₀ ∈ db.members.filter fun m => gids.contains m.group_id :=
      List.mem_filter.2 ⟨hm₀db, by simp [hm₀g, hg₀]⟩
    have hguard := (inter_guard_iff db gids u hnd).2 h
    apply List.mem_map.2
    refine ⟨(u, sqlMaxName (((db.members.filter fun m => gids.contains m.group_id).filter
        fun m => m.user_id == u).map fun m => m.user_name)), ?_, rfl⟩
    apply List.mem_filterMap.2
    refine ⟨u, ?_, ?_⟩
    · exact List.mem_dedup.2 (List.mem_map.2 ⟨m₀, hm₀rel, hm₀u⟩)
    · rw [if_pos hguard]

/-- Witness for C5 at the concrete scenario schema with ids `[G1, G2]` and
user `B`. -/
theorem intersection_spec_witness :
    analyze_intersection exDB [] = []
    ∧ ("B" ∈ (analyze_intersection exDB ["G1", "G2"]).map Prod.fst ↔
        ∀ g ∈ ["G1", "G2"], ∃ m ∈ exDB.members, m.group_id = g ∧ m.user_id = "B") :=
  intersection_spec exDB ["G1", "G2"] "B" (by decide) (by decide)

/-- Schema with one group and one member, for the duplicate-id
counterexample. -/
def dupDB : AnalysisDB :=
  { groups := [("G1", "Alpha")]
    members :=
      [{ group_id := "G1", user_id := "U", user_name := some "N", user_group_name := some "N" }] }

/-- Counterexample for C5 as stated: user `U` belongs to every group listed
in `[G1, G1]`, yet `analyze_intersection` returns an empty result because
the duplicated list's length can never equal a distinct-group count. -/
theorem intersection_duplicate_cex :
    analyze_intersection dupDB ["G1", "G1"] = []
    ∧ ({ group_id := "G1", user_id := "U", user_name := some "N"
         user_group_name := some "N" } : MemberRow) ∈ dupDB.members := by
  constructor
  · rfl
  · decide

/-- C10.  Whenever the id list passed to `analyze_intersection` contains a
duplicate, the result is empty: each user's distinct-group count within the
list is at most the number of distinct ids, which is strictly below the
list length the implementation compares against. -/
theorem intersection_dup_mem_empty (db : AnalysisDB) (gids : List String)
    (h : ¬ gids.Nodup) :
    analyze_intersection db gids = [] := by
  have hne : gids ≠ [] := by
    rintro rfl
    exact h List.nodup_nil
  unfold analyze_intersection
  rw [if_neg (by simpa using hne)]
  dsimp only
  rw [List.filterMap_eq_nil_iff]
  intro u hu
  have hcond : ¬ ((((db.members.filter fun m => gids.contains m.group_id).filter
      fun m => m.user_id == u).map fun m => m.group_id).dedup.length = gids.length) := by
    have hsub2 : (((db.members.filter fun m => gids.contains m.group_id).filter
        fun m => m.user_id == u).map fun m => m.group_id).dedup ⊆ gids.dedup := by
      intro x hx
      exact List.mem_dedup.2 (inter_dedup_subset db gids u hx)
    have h1 := ((List.nodup_dedup _).subperm hsub2).length_le
    have h2 : gids.dedup.length < gids.length := by
      have hsl := gids.dedup_sublist
      rcases Nat.lt_or_ge gids.dedup.length gids.length with hlt | hge
      · exact hlt
      · exact absurd (List.dedup_eq_self.1 (hsl.eq_of_length_le hge)) h
    omega
  exact if_neg hcond

/-- Witness for C10 at the concrete scenario schema with the duplicated
list `[G1, G1]`. -/
theorem intersection_dup_mem_empty_witness :
    analyze_intersection exDB ["G1", "G1"] = [] :=
  intersection_dup_mem_empty exDB ["G1", "G1"] (by decide)

/-! ## Validation of the MD5 and bytes-repr embeddings

The MD5 embedding is checked against the RFC 1321 test vectors (including a
two-chunk input), and the repr embedding against CPython's escaping of a
byte string mixing printable, escaped, and quote bytes. -/

set_option maxRecDepth 8000 in
example : md5 "" = "d41d8cd98f00b204e9800998ecf8427e" := by decide

set_option maxRecDepth 8000 in
example : md5 "a" = "0cc175b9c0f1b6a831c399e269772661" := by decide

set_option maxRecDepth 8000 in
example : md5 "abc" = "900150983cd24fb0d6963f7d28e17f72" := by decide

set_option maxRecDepth 8000 in
example : md5 "message digest" = "f96b697d7cb7938d525a2f31aaf161d0" := by decide

set_option maxRecDepth 8000 in
example :
    md5 "12345678901234567890123456789012345678901234567890123456789012345678901234567890" =
      "57edf4a22be3c955ac49da2e2107b67a" := by decide

example :
    String.mk (pySlice2Neg1 (pyBytesRepr [0, 1, 39, 92, 65, 200, 10, 127])) =
      "\\x00\\x01'\\\\A\\xc8\\n\\x7f" := by decide
